import Mathlib

/-!
Shallow embedding of the figure-generation scripts of the SGO-FIG repository
(figures/python_code/death_model.py, geo_model.py, pk_model.py).

Numeric values are modelled by rationals, numpy 2-D arrays by lists of rows
(lists of rationals).  Each definition below embeds a concrete expression of
one of the three scripts; the theorems settle the specification claims about
the data transforms those scripts perform before handing values to the
plotting library.
-/

/-- Default matplotlib color cycle, read once at script start via
the rcParams prop cycle; each script binds its method colors to fixed
positions in this list. -/
def col : List String :=
  ["#1f77b4", "#ff7f0e", "#2ca02c", "#d62728", "#9467bd",
   "#8c564b", "#e377c2", "#7f7f7f", "#bcbd22", "#17becf"]

/-- Color bound to the SGO-FIG method: col[0]. -/
def Scol : String := col.getD 0 ""

/-- Color bound to the ACE method: col[3]. -/
def Acol : String := col.getD 3 ""

/-- Color bound to the Muller1 method: col[6]. -/
def Mcol : String := col.getD 6 ""

/-- Color bound to the Muller2 method: col[5]. -/
def Mcol2 : String := col.getD 5 ""

/-- Column count of a 2-D array, np.shape(a)[1].  Loaded numpy arrays are
rectangular, so the length of the first row is the column count. -/
def np_ncols (m : List (List ℚ)) : ℕ := (m.headD []).length

/-- Rectangularity invariant of a loaded 2-D numpy array: every row has
the common column count. -/
def Rect (m : List (List ℚ)) : Prop := ∀ row ∈ m, row.length = np_ncols m

/-- Embedding of np.linspace(start, stop, num) with the default
endpoint=True: num evenly spaced samples from start to stop inclusive. -/
def np_linspace (start stop : ℚ) (num : ℕ) : List ℚ :=
  if num ≤ 1 then List.replicate num start
  else (List.range num).map
    (fun i : ℕ => start + (stop - start) * (i : ℚ) / ((num : ℚ) - 1))

/-- Rescaled x axis of the pk ACE trace figure:
x_ace18 = np.linspace(0, 18700000, np.shape(ace18)[1]). -/
def x_ace18 (ace18 : List (List ℚ)) : List ℚ :=
  np_linspace 0 18700000 (np_ncols ace18)

/-- Rescaled x axis of the pk SGD trace figure:
x_sgd18 = np.linspace(0, 18700000, np.shape(sgd18)[1]). -/
def x_sgd18 (sgd18 : List (List ℚ)) : List ℚ :=
  np_linspace 0 18700000 (np_ncols sgd18)

/-- Rescaled x axis of the geo SGD traces:
x_sgd = np.linspace(0, 50000, np.size(tr_sgd[0])); the size of row 0 is
the column count. -/
def x_sgd (tr_sgd : List (List ℚ)) : List ℚ :=
  np_linspace 0 50000 (np_ncols tr_sgd)

/-- Rescaled x axis of the geo ACE traces:
x_ace = np.linspace(0, 85000, np.size(tr_ace[0])). -/
def x_ace (tr_ace : List (List ℚ)) : List ℚ :=
  np_linspace 0 85000 (np_ncols tr_ace)

/-- Rescaled x axis of the pk first-100k SGD trace:
x_sgd1_first100k = np.linspace(0, 100000, np.shape(sgd1_first100k)[1]). -/
def x_sgd1_first100k (sgd1_first100k : List (List ℚ)) : List ℚ :=
  np_linspace 0 100000 (np_ncols sgd1_first100k)

/-- Rescaled x axis of the pk batch-size-1 trace:
x_sgd1 = np.linspace(0, 18700000, np.shape(sgd1)[1]). -/
def x_sgd1 (sgd1 : List (List ℚ)) : List ℚ :=
  np_linspace 0 18700000 (np_ncols sgd1)

/-- Rescaled x axis of the pk batch-size-10 trace:
x_sgd10 = np.linspace(0, 18700000, np.shape(sgd10)[1]). -/
def x_sgd10 (sgd10 : List (List ℚ)) : List ℚ :=
  np_linspace 0 18700000 (np_ncols sgd10)

/-- Rescaled x axis of the pk batch-size-100 trace:
x_sgd100 = np.linspace(0, 18700000, np.shape(sgd100)[1]). -/
def x_sgd100 (sgd100 : List (List ℚ)) : List ℚ :=
  np_linspace 0 18700000 (np_ncols sgd100)

/-- A concrete 2-row, 2-column trace matrix used as evaluation input. -/
def mat2 : List (List ℚ) := [[1, 2], [3, 4]]

theorem np_linspace_length (start stop : ℚ) (num : ℕ) :
    (np_linspace start stop num).length = num := by
  unfold np_linspace
  split <;> simp

theorem np_linspace_getElem (start stop : ℚ) (num : ℕ) (h : 2 ≤ num)
    (i : ℕ) (hi : i < num) :
    (np_linspace start stop num)[i]? =
      some (start + (stop - start) * (i : ℚ) / ((num : ℚ) - 1)) := by
  unfold np_linspace
  rw [if_neg (by omega)]
  rw [List.getElem?_map, List.getElem?_range hi]
  rfl

theorem np_linspace_head (start stop : ℚ) (num : ℕ) (h : 2 ≤ num) :
    (np_linspace start stop num).head? = some start := by
  rw [List.head?_eq_getElem?, np_linspace_getElem start stop num h 0 (by omega)]
  norm_num

theorem np_linspace_last (start stop : ℚ) (num : ℕ) (h : 2 ≤ num) :
    (np_linspace start stop num).getLast? = some stop := by
  rw [List.getLast?_eq_getElem?, np_linspace_length,
    np_linspace_getElem start stop num h (num - 1) (by omega)]
  have hne : ((num : ℚ) - 1) ≠ 0 := by
    have : (2 : ℚ) ≤ (num : ℚ) := by exact_mod_cast h
    linarith
  have hcast : ((num - 1 : ℕ) : ℚ) = (num : ℚ) - 1 := by
    have : 1 ≤ num := by omega
    push_cast [this]
    ring
  rw [hcast, mul_div_assoc, div_self hne]
  norm_num

/-- Endpoint and interpolation behavior of a linspace starting at 0. -/
theorem linspace0_spec (T : ℚ) (n : ℕ) (h : 2 ≤ n) :
    (np_linspace 0 T n).head? = some 0 ∧
    (np_linspace 0 T n).getLast? = some T ∧
    ∀ i < n, (np_linspace 0 T n)[i]? = some (T * (i : ℚ) / ((n : ℚ) - 1)) := by
  refine ⟨np_linspace_head 0 T n h, np_linspace_last 0 T n h, ?_⟩
  intro i hi
  rw [np_linspace_getElem 0 T n h i hi]
  norm_num

/-- C1 counterexample: the pk first-100k trace is a pk trace matrix given a
rescaled x axis, yet on a concrete 2-column trace matrix the code maps its
last column to 100,000, not to the 18,700,000 the claim declares for the pk
traces. -/
theorem C1_counterexample :
    2 ≤ np_ncols mat2 ∧
    (x_sgd1_first100k mat2).getLast? = some 100000 ∧
    (100000 : ℚ) ≠ 18700000 := by
  exact ⟨by decide, np_linspace_last 0 100000 2 (by norm_num), by norm_num⟩

/-- C1 (amended): for every trace matrix with at least 2 columns, each
rescaled x axis computed by the scripts maps the first column to 0 and the
last column to the total evaluation count the code declares for that source
(18,700,000 for the full-length pk traces, 100,000 for the pk first-100k
trace, 50,000 for the geo SGD traces, 85,000 for the geo ACE traces), with
intermediate columns linearly interpolated between these endpoints. -/
theorem C1_rescale_endpoints (m : List (List ℚ)) (h : 2 ≤ np_ncols m) :
    ((x_ace18 m).head? = some 0 ∧ (x_ace18 m).getLast? = some 18700000 ∧
      ∀ i < np_ncols m, (x_ace18 m)[i]? =
        some (18700000 * (i : ℚ) / ((np_ncols m : ℚ) - 1))) ∧
    ((x_sgd18 m).head? = some 0 ∧ (x_sgd18 m).getLast? = some 18700000 ∧
      ∀ i < np_ncols m, (x_sgd18 m)[i]? =
        some (18700000 * (i : ℚ) / ((np_ncols m : ℚ) - 1))) ∧
    ((x_sgd m).head? = some 0 ∧ (x_sgd m).getLast? = some 50000 ∧
      ∀ i < np_ncols m, (x_sgd m)[i]? =
        some (50000 * (i : ℚ) / ((np_ncols m : ℚ) - 1))) ∧
    ((x_ace m).head? = some 0 ∧ (x_ace m).getLast? = some 85000 ∧
      ∀ i < np_ncols m, (x_ace m)[i]? =
        some (85000 * (i : ℚ) / ((np_ncols m : ℚ) - 1))) ∧
    ((x_sgd1_first100k m).head? = some 0 ∧
      (x_sgd1_first100k m).getLast? = some 100000 ∧
      ∀ i < np_ncols m, (x_sgd1_first100k m)[i]? =
        some (100000 * (i : ℚ) / ((np_ncols m : ℚ) - 1))) ∧
    ((x_sgd1 m).head? = some 0 ∧ (x_sgd1 m).getLast? = some 18700000) ∧
    ((x_sgd10 m).head? = some 0 ∧ (x_sgd10 m).getLast? = some 18700000) ∧
    ((x_sgd100 m).head? = some 0 ∧ (x_sgd100 m).getLast? = some 18700000) :=
  ⟨linspace0_spec 18700000 (np_ncols m) h,
   linspace0_spec 18700000 (np_ncols m) h,
   linspace0_spec 50000 (np_ncols m) h,
   linspace0_spec 85000 (np_ncols m) h,
   linspace0_spec 100000 (np_ncols m) h,
   ⟨(linspace0_spec 18700000 (np_ncols m) h).1,
    (linspace0_spec 18700000 (np_ncols m) h).2.1⟩,
   ⟨(linspace0_spec 18700000 (np_ncols m) h).1,
    (linspace0_spec 18700000 (np_ncols m) h).2.1⟩,
   ⟨(linspace0_spec 18700000 (np_ncols m) h).1,
    (linspace0_spec 18700000 (np_ncols m) h).2.1⟩⟩

/-- C1 witness: the amended endpoint property evaluated on the concrete
2-column matrix mat2 for the geo SGD rescale. -/
theorem C1_witness :
    (x_sgd mat2).head? = some 0 ∧ (x_sgd mat2).getLast? = some 50000 :=
  ⟨(C1_rescale_endpoints mat2 (by decide)).2.2.1.1,
   (C1_rescale_endpoints mat2 (by decide)).2.2.1.2.1⟩

/-- Elementwise comparison d > 8 of a 2-D array against the scalar
threshold 8, yielding the 0/1 matrix that numpy then sums as integers. -/
def np_gt8 (d : List (List ℚ)) : List (List ℚ) :=
  d.map (fun row => row.map (fun v => if 8 < v then (1 : ℚ) else 0))

/-- Columnwise accumulation of a 2-D array with k columns: the recursion
behind a numpy sum along axis 0. -/
def sumCols (k : ℕ) (m : List (List ℚ)) : List ℚ :=
  m.foldr (fun row acc => List.zipWith (· + ·) row acc) (List.replicate k 0)

/-- Embedding of np.sum(m, 0): columnwise sums, one entry per column. -/
def np_sum_axis0 (m : List (List ℚ)) : List ℚ := sumCols (np_ncols m) m

/-- Derived per-column threshold count of the pk design figures:
num_at_8_2 = np.sum(d > 8, 0). -/
def num_at_8_2 (d : List (List ℚ)) : List ℚ := np_sum_axis0 (np_gt8 d)

theorem sumCols_nil (k : ℕ) : sumCols k [] = List.replicate k 0 := rfl

theorem sumCols_cons (k : ℕ) (row : List ℚ) (t : List (List ℚ)) :
    sumCols k (row :: t) = List.zipWith (· + ·) row (sumCols k t) := rfl

theorem sumCols_length (k : ℕ) (m : List (List ℚ))
    (hm : ∀ row ∈ m, row.length = k) : (sumCols k m).length = k := by
  induction m with
  | nil => simp [sumCols_nil]
  | cons row t ih =>
    have hr : row.length = k := hm row (by simp)
    have ht : ∀ r ∈ t, r.length = k := fun r h2 => hm r (by simp [h2])
    rw [sumCols_cons, List.length_zipWith, hr, ih ht]
    exact Nat.min_self k

theorem np_ncols_np_gt8 (d : List (List ℚ)) :
    np_ncols (np_gt8 d) = np_ncols d := by
  cases d <;> simp [np_gt8, np_ncols]

theorem np_gt8_row_length (d : List (List ℚ)) (hd : Rect d) :
    ∀ r ∈ np_gt8 d, r.length = np_ncols d := by
  intro r hr
  rcases List.mem_map.mp hr with ⟨row, hrow, rfl⟩
  simpa using hd row hrow

theorem sumCols_gt8_getElem (k : ℕ) (d : List (List ℚ))
    (hd : ∀ row ∈ d, row.length = k) (c : ℕ) (hc : c < k) :
    (sumCols k (np_gt8 d))[c]? =
      some ((d.countP (fun row => decide (8 < row.getD c 0)) : ℕ) : ℚ) := by
  induction d with
  | nil => simp [np_gt8, sumCols_nil, List.getElem?_replicate_of_lt hc]
  | cons row t ih =>
    have hr : row.length = k := hd row (by simp)
    have ht : ∀ r ∈ t, r.length = k := fun r h2 => hd r (by simp [h2])
    have hcr : c < row.length := by omega
    have h1 : (row.map (fun v => if 8 < v then (1 : ℚ) else 0))[c]? =
        some (if 8 < row.getD c 0 then (1 : ℚ) else 0) := by
      rw [List.getElem?_map, List.getElem?_eq_getElem hcr]
      simp [List.getD_eq_getElem?_getD, List.getElem?_eq_getElem hcr]
    rw [show np_gt8 (row :: t) =
        (row.map (fun v => if 8 < v then (1 : ℚ) else 0)) :: np_gt8 t from rfl,
      sumCols_cons, List.getElem?_zipWith, h1, ih ht]
    rw [List.countP_cons]
    push_cast
    by_cases hgt : 8 < row.getD c 0 <;> simp [hgt] <;> ring

/-- C2: for every rectangular design matrix and every column c, the overlay
count displayed for column c equals the number of rows whose value in
column c strictly exceeds 8, and the sum over all columns of these counts
is at most rows times columns. -/
theorem C2_threshold_counts (d : List (List ℚ)) (hd : Rect d) :
    (∀ c < np_ncols d, (num_at_8_2 d)[c]? =
      some ((d.countP (fun row => decide (8 < row.getD c 0)) : ℕ) : ℚ)) ∧
    (num_at_8_2 d).sum ≤ (d.length : ℚ) * (np_ncols d : ℚ) := by
  have hrows := np_gt8_row_length d hd
  have hnum : num_at_8_2 d = sumCols (np_ncols d) (np_gt8 d) := by
    unfold num_at_8_2 np_sum_axis0
    rw [np_ncols_np_gt8]
  have hget : ∀ c < np_ncols d, (num_at_8_2 d)[c]? =
      some ((d.countP (fun row => decide (8 < row.getD c 0)) : ℕ) : ℚ) := by
    intro c hc
    rw [hnum]
    exact sumCols_gt8_getElem (np_ncols d) d hd c hc
  refine ⟨hget, ?_⟩
  have hlen : (num_at_8_2 d).length = np_ncols d := by
    rw [hnum]
    exact sumCols_length _ _ hrows
  have hmem : ∀ x ∈ num_at_8_2 d, x ≤ (d.length : ℚ) := by
    intro x hx
    rcases List.mem_iff_getElem?.mp hx with ⟨c, hcx⟩
    have hc : c < np_ncols d := by
      by_contra hge
      rw [List.getElem?_eq_none (by rw [hlen]; omega)] at hcx
      exact Option.noConfusion hcx
    rw [hget c hc] at hcx
    have hx2 : x = ((d.countP (fun row => decide (8 < row.getD c 0)) : ℕ) : ℚ) :=
      (Option.some.inj hcx).symm
    rw [hx2]
    exact_mod_cast List.countP_le_length (fun row : List ℚ => decide (8 < row.getD c 0))
  have hb := List.sum_le_card_nsmul (num_at_8_2 d) (d.length : ℚ) hmem
  rw [hlen] at hb
  calc (num_at_8_2 d).sum ≤ (np_ncols d) • (d.length : ℚ) := hb
    _ = (d.length : ℚ) * (np_ncols d : ℚ) := by
        rw [nsmul_eq_mul]
        ring

/-- C2 witness: the per-column count bound evaluated on the concrete
matrix mat2. -/
theorem C2_witness :
    (num_at_8_2 mat2).sum ≤ (mat2.length : ℚ) * (np_ncols mat2 : ℚ) :=
  (C2_threshold_counts mat2 (show ∀ row ∈ mat2, row.length = np_ncols mat2 by decide)).2

/-- Face-color assignment of the boxplot loops: zip(bp boxes, bp_cols)
pairs the box of the i-th summary vector handed to the boxplot call with
the i-th palette entry and sets that face color; the zip stops at the
shorter list. -/
def boxplot_face_colors (data : List (List ℚ)) (palette : List String) :
    List String :=
  (data.zip palette).map Prod.snd

/-- Palette of the pk utility boxplot:
bp_cols = [Mcol2, Mcol, Scol, Acol, Mcol2, Mcol, Scol, Acol,
lightsteelblue]. -/
def bp_cols_pk : List String :=
  [Mcol2, Mcol, Scol, Acol, Mcol2, Mcol, Scol, Acol, "lightsteelblue"]

/-- Palette of the geo utility boxplot: bp_cols = [Scol, Acol]. -/
def bp_cols_geo : List String := [Scol, Acol]

theorem map_snd_zip_eq_take {α β : Type} (l : List α) (p : List β) :
    (l.zip p).map Prod.snd = p.take l.length := by
  induction l generalizing p with
  | nil => simp
  | cons a t ih =>
    cases p with
    | nil => simp
    | cons b q => simp [ih]

/-- C3: boxplot color assignment is positional, box i receives palette
entry i of the configured method-to-color list, and two runs that differ
only in the numeric values inside the summary vectors (same number of
vectors) assign identical colors to every box. -/
theorem C3_boxplot_colors_positional (data₁ data₂ : List (List ℚ))
    (palette : List String) (i : ℕ)
    (hi : i < data₁.length)
    (hlen : data₁.length = data₂.length) :
    (boxplot_face_colors data₁ palette)[i]? = palette[i]? ∧
    boxplot_face_colors data₁ palette = boxplot_face_colors data₂ palette := by
  constructor
  · rw [boxplot_face_colors, map_snd_zip_eq_take, List.getElem?_take,
      if_pos hi]
  · rw [boxplot_face_colors, boxplot_face_colors, map_snd_zip_eq_take,
      map_snd_zip_eq_take, hlen]

/-- C3 witness: the positional color assignment evaluated on two concrete
2-vector runs against the geo palette. -/
theorem C3_witness :
    (boxplot_face_colors [[1], [2]] bp_cols_geo)[0]? = bp_cols_geo[0]? ∧
    boxplot_face_colors [[1], [2]] bp_cols_geo =
      boxplot_face_colors [[5], [9]] bp_cols_geo :=
  C3_boxplot_colors_positional [[1], [2]] [[5], [9]] bp_cols_geo 0
    (by decide) (by decide)

/-- Annotation loop of the pk design figures: for i in range(15), the
count for column i is placed as a text label at x = i + 0.7 and at height
9.5 when i is even, 6.2 when i is odd. -/
def design_labels (counts : List ℚ) : List (ℚ × ℚ × ℚ) :=
  (List.range 15).map
    (fun i : ℕ => ((i : ℚ) + 7/10,
      if i % 2 = 0 then (19/2 : ℚ) else 31/5,
      counts.getD i 0))

/-- C5: every one of the 15 per-column labels sits at one of exactly two
vertical offsets, even columns at the higher offset 9.5 and odd columns at
the lower offset 6.2. -/
theorem C5_label_offsets (counts : List ℚ) (i : ℕ) (hi : i < 15) :
    ((design_labels counts)[i]? =
      some ((i : ℚ) + 7/10,
        if i % 2 = 0 then (19/2 : ℚ) else 31/5,
        counts.getD i 0)) ∧
    ((31/5 : ℚ) < 19/2) ∧
    (∀ lbl ∈ design_labels counts, lbl.2.1 = 19/2 ∨ lbl.2.1 = 31/5) := by
  refine ⟨?_, by norm_num, ?_⟩
  · rw [design_labels, List.getElem?_map, List.getElem?_range hi]
    rfl
  · intro lbl hl
    rcases List.mem_map.mp hl with ⟨j, hj, rfl⟩
    by_cases h2 : j % 2 = 0 <;> simp [h2]

/-- C5 witness: the label of even column 2 evaluated on an empty count
list, together with the offset order. -/
theorem C5_witness :
    ((design_labels [])[2]? =
      some (((2 : ℕ) : ℚ) + 7/10,
        if 2 % 2 = 0 then (19/2 : ℚ) else 31/5,
        List.getD ([] : List ℚ) 2 0)) ∧
    ((31/5 : ℚ) < 19/2) :=
  ⟨(C5_label_offsets [] 2 (by norm_num)).1,
   (C5_label_offsets [] 2 (by norm_num)).2.1⟩

/-- A single line handed to a plot call: x coordinates, y coordinates,
color and alpha (opacity). -/
structure TraceLine where
  xs : List ℚ
  ys : List ℚ
  color : String
  alpha : ℚ
deriving DecidableEq

/-- Embedding of np.transpose for a rectangular 2-D array: entry (j, i) of
the result is entry (i, j) of the input. -/
def np_transpose (m : List (List ℚ)) : List (List ℚ) :=
  (List.range (np_ncols m)).map
    (fun j : ℕ => m.map (fun row => row.getD j 0))

/-- Embedding of plt.plot(x, y2d, color, alpha) with a 2-D y argument:
matplotlib draws one line per column of y2d, every line sharing the x
vector, the color and the alpha. -/
def plt_plot2 (x : List ℚ) (y2d : List (List ℚ)) (c : String) (a : ℚ) :
    List TraceLine :=
  (List.range (np_ncols y2d)).map
    (fun j : ℕ => ⟨x, y2d.map (fun row => row.getD j 0), c, a⟩)

/-- Lines of the geo SGD trace overlay:
plt.plot(x_sgd, np.transpose(tr_sgd), color=Scol, alpha=0.05). -/
def geo_sgd_lines (tr_sgd : List (List ℚ)) : List TraceLine :=
  plt_plot2 (x_sgd tr_sgd) (np_transpose tr_sgd) Scol (1/20)

/-- Lines of the geo ACE trace overlay:
plt.plot(x_ace, np.transpose(tr_ace), color=Acol, alpha=0.05). -/
def geo_ace_lines (tr_ace : List (List ℚ)) : List TraceLine :=
  plt_plot2 (x_ace tr_ace) (np_transpose tr_ace) Acol (1/20)

/-- Lines of the pk ACE trace overlay:
plt.plot(x_ace18, np.transpose(ace18), color=Acol, alpha=0.2). -/
def pk_ace18_lines (ace18 : List (List ℚ)) : List TraceLine :=
  plt_plot2 (x_ace18 ace18) (np_transpose ace18) Acol (1/5)

/-- Lines of the pk SGD trace overlay:
plt.plot(x_sgd18, np.transpose(sgd18), color=Scol, alpha=0.1). -/
def pk_sgd18_lines (sgd18 : List (List ℚ)) : List TraceLine :=
  plt_plot2 (x_sgd18 sgd18) (np_transpose sgd18) Scol (1/10)

/-- Default x coordinates of plt.plot with a single 1-D argument: the
element indices 0, 1, 2, ... of the y vector. -/
def default_plot_x (n : ℕ) : List ℚ :=
  (List.range n).map (fun i : ℕ => (i : ℚ))

/-- Lines of the death-model design-trace figure: for i in range(11),
plt.plot(design_traces[i], color=col[i % 6 + 1]) with the default alpha 1
and the default x values, the literal column indices. -/
def death_design_lines (design_traces : List (List ℚ)) : List TraceLine :=
  (List.range 11).map
    (fun i : ℕ => ⟨default_plot_x (design_traces.getD i []).length,
      design_traces.getD i [], col.getD (i % 6 + 1) "", 1⟩)

theorem map_range_getD (l : List ℚ) :
    (List.range l.length).map (fun i : ℕ => l.getD i 0) = l := by
  apply List.ext_getElem?
  intro i
  by_cases hi : i < l.length
  · rw [List.getElem?_map, List.getElem?_range hi,
      List.getElem?_eq_getElem hi]
    simp [List.getD_eq_getElem?_getD, List.getElem?_eq_getElem hi]
  · rw [List.getElem?_eq_none (by simpa using hi),
      List.getElem?_eq_none (by omega)]

theorem np_ncols_transpose (m : List (List ℚ)) (hk : 1 ≤ np_ncols m) :
    np_ncols (np_transpose m) = m.length := by
  unfold np_transpose np_ncols
  rcases m with _ | ⟨r, t⟩
  · simp [np_ncols] at hk
  · rcases r with _ | ⟨v, r⟩
    · simp [np_ncols] at hk
    · simp [List.range_succ_eq_map]

theorem transpose_col_eq_row (m : List (List ℚ)) (hm : Rect m) (j : ℕ)
    (hj : j < m.length) :
    (np_transpose m).map (fun row => row.getD j 0) = m.getD j [] := by
  have hmem : m.getD j [] ∈ m := by
    rw [List.getD_eq_getElem?_getD, List.getElem?_eq_getElem hj]
    exact List.getElem_mem hj
  have hlen : (m.getD j []).length = np_ncols m := hm _ hmem
  unfold np_transpose
  rw [List.map_map]
  have hcongr : ∀ j2 ∈ List.range (np_ncols m),
      ((fun row => row.getD j 0) ∘
        fun j2 : ℕ => m.map fun row => row.getD j2 0) j2 =
      (m.getD j []).getD j2 0 := by
    intro j2 _
    simp [Function.comp, List.getD_eq_getElem?_getD,
      List.getElem?_eq_getElem hj]
  rw [List.map_congr_left hcongr, ← hlen]
  exact map_range_getD _

theorem plt_plot2_transpose_getElem (m : List (List ℚ)) (hm : Rect m)
    (hk : 1 ≤ np_ncols m) (x : List ℚ) (c : String) (a : ℚ) (j : ℕ) :
    (plt_plot2 x (np_transpose m) c a)[j]? =
      (m[j]?).map (fun row => TraceLine.mk x row c a) := by
  unfold plt_plot2
  rw [np_ncols_transpose m hk]
  by_cases hj : j < m.length
  · rw [List.getElem?_map, List.getElem?_range hj,
      List.getElem?_eq_getElem hj]
    have hrow : (np_transpose m).map (fun row => row[j]?.getD 0) = m[j] := by
      simpa [List.getD_eq_getElem?_getD, List.getElem?_eq_getElem hj]
        using transpose_col_eq_row m hm j hj
    simp [hrow]
  · have h1 : ((List.range m.length).map
        (fun j : ℕ => (⟨x, (np_transpose m).map (fun row => row.getD j 0),
          c, a⟩ : TraceLine))).length ≤ j := by
      simp
      omega
    have h2 : m.length ≤ j := by omega
    rw [List.getElem?_eq_none h1, List.getElem?_eq_none h2]
    rfl

/-- A concrete 12-row, 2-column trace matrix for the death-model figure. -/
def deathM : List (List ℚ) := List.replicate 12 [5, 6]

/-- C4 counterexample: the death-model design-trace figure renders a trace
matrix as a trace overlay, yet its first two lines receive different
colors (the claim demands one shared color per method), its x values are
the literal column indices 0, 1, ... (not an evaluation-count remap), and
only 11 of the 12 rows are drawn. -/
theorem C4_counterexample :
    ((death_design_lines deathM).map TraceLine.color)[0]? = some "#ff7f0e" ∧
    ((death_design_lines deathM).map TraceLine.color)[1]? = some "#2ca02c" ∧
    "#ff7f0e" ≠ "#2ca02c" ∧
    ((death_design_lines deathM).map TraceLine.xs)[0]? =
      some (default_plot_x 2) ∧
    default_plot_x 2 = [((0 : ℕ) : ℚ), ((1 : ℕ) : ℚ)] ∧
    (death_design_lines deathM).length = 11 ∧
    deathM.length = 12 :=
  ⟨rfl, rfl, by decide, rfl, rfl, rfl, rfl⟩

/-- C4 (amended): for every rectangular trace matrix with at least one
column, the geo and pk trace overlays draw each row j as its own line with
the shared method color, a low alpha (0.05, 0.2 or 0.1, each below 1) and
the rescaled evaluation-count x axis; the death-model design-trace figure
instead draws rows 0 to 10 each in its own cycling color col[i % 6 + 1] at
full alpha 1 against the literal column indices. -/
theorem C4_trace_overlay (m : List (List ℚ)) (hm : Rect m)
    (hk : 1 ≤ np_ncols m) (j : ℕ) :
    ((geo_sgd_lines m)[j]? =
      (m[j]?).map (fun row => TraceLine.mk (x_sgd m) row Scol (1/20))) ∧
    ((geo_ace_lines m)[j]? =
      (m[j]?).map (fun row => TraceLine.mk (x_ace m) row Acol (1/20))) ∧
    ((pk_ace18_lines m)[j]? =
      (m[j]?).map (fun row => TraceLine.mk (x_ace18 m) row Acol (1/5))) ∧
    ((pk_sgd18_lines m)[j]? =
      (m[j]?).map (fun row => TraceLine.mk (x_sgd18 m) row Scol (1/10))) ∧
    ((1/20 : ℚ) < 1 ∧ (1/5 : ℚ) < 1 ∧ (1/10 : ℚ) < 1) ∧
    (∀ i < 11, (death_design_lines m)[i]? =
      some ⟨default_plot_x ((m.getD i []).length), m.getD i [],
        col.getD (i % 6 + 1) "", 1⟩) := by
  refine ⟨plt_plot2_transpose_getElem m hm hk _ _ _ j,
    plt_plot2_transpose_getElem m hm hk _ _ _ j,
    plt_plot2_transpose_getElem m hm hk _ _ _ j,
    plt_plot2_transpose_getElem m hm hk _ _ _ j,
    ⟨by norm_num, by norm_num, by norm_num⟩, ?_⟩
  intro i hi
  rw [death_design_lines, List.getElem?_map, List.getElem?_range hi]
  rfl

/-- C4 witness: the geo SGD overlay evaluated at row 0 of the concrete
matrix mat2. -/
theorem C4_witness :
    (geo_sgd_lines mat2)[0]? =
      (mat2[0]?).map (fun row => TraceLine.mk (x_sgd mat2) row Scol (1/20)) :=
  (C4_trace_overlay mat2
    (show ∀ row ∈ mat2, row.length = np_ncols mat2 by decide)
    (by decide) 0).1

/-- A loaded numpy array: np.loadtxt squeezes a parsed result with a
single row, or a single column, into a 1-D array, and otherwise yields a
2-D array. -/
inductive NDArray where
  | oneD (v : List ℚ)
  | twoD (m : List (List ℚ))
deriving DecidableEq

/-- Embedding of np.loadtxt on the parsed whitespace-delimited rows of a
numeric text file, with the squeeze of singleton dimensions. -/
def np_loadtxt (file : List (List ℚ)) : NDArray :=
  match file with
  | [row] => NDArray.oneD row
  | _ =>
      if file.all (fun r => r.length == 1)
      then NDArray.oneD (file.map (fun r => r.headD 0))
      else NDArray.twoD file

/-- Column slice a[:, j] of a loaded array: on a 1-D array numpy raises an
IndexError (too many indices), and on a 2-D array it raises when j is not
below the column count. -/
def ndarray_col (a : NDArray) (j : ℕ) : Except String (List ℚ) :=
  match a with
  | NDArray.oneD _ => Except.error "too many indices for 1-D array"
  | NDArray.twoD m =>
      if j < np_ncols m
      then Except.ok (m.map (fun row => row.getD j 0))
      else Except.error "index out of bounds"

/-- One rendered figure of a 2-D plot call: point coordinates plus the
fixed axis limits of the block that drew it. -/
structure ScatterFig where
  xs : List ℚ
  ys : List ℚ
  xlim : ℚ × ℚ
  ylim : ℚ × ℚ
deriving DecidableEq

/-- Rendering of one parameter-sweep file in the geo script: load the
file and scatter column 0 against column 1 on the fixed unit-square
limits (-0.55, 0.55). -/
def geo_sweep_render (file : List (List ℚ)) : Except String ScatterFig := do
  let a := np_loadtxt file
  let c0 ← ndarray_col a 0
  let c1 ← ndarray_col a 1
  Except.ok ⟨c0, c1, (-(11/20), 11/20), (-(11/20), 11/20)⟩

/-- Rendering of the death-model utility-surface curve:
plt.plot(util_surf[:, 0], util_surf[:, 1]) with xlim (0, 10) and
ylim (0, 35). -/
def death_surface_render (file : List (List ℚ)) : Except String ScatterFig := do
  let a := np_loadtxt file
  let c0 ← ndarray_col a 0
  let c1 ← ndarray_col a 1
  Except.ok ⟨c0, c1, (0, 10), (0, 35)⟩

/-- Read off whether a render call produced a figure rather than
propagating an uncaught error. -/
def renderOk (r : Except String ScatterFig) : Bool :=
  match r with
  | Except.ok _ => true
  | Except.error _ => false

/-- Sweep loop of the geo script: list the files of the sweep directory
and render one standalone figure per file, reading its parsed content
from the file system env. -/
def change_l_gamma_figs (files : List String)
    (env : String → List (List ℚ)) : List (Except String ScatterFig) :=
  files.map (fun f => geo_sweep_render (env f))

/-- C6: the sweep loop renders exactly one figure per listed file, so the
figure count equals the file count, each file yields its own standalone
figure, and adding or removing one file changes the count by exactly
one. -/
theorem C6_sweep_figure_count (files : List String)
    (env : String → List (List ℚ)) (f : String) :
    (change_l_gamma_figs files env).length = files.length ∧
    (∀ i : ℕ, (change_l_gamma_figs files env)[i]? =
      (files[i]?).map (fun g => geo_sweep_render (env g))) ∧
    (change_l_gamma_figs (f :: files) env).length = files.length + 1 ∧
    (f ∈ files →
      (change_l_gamma_figs (files.erase f) env).length = files.length - 1) := by
  refine ⟨by simp [change_l_gamma_figs], ?_, by simp [change_l_gamma_figs], ?_⟩
  · intro i
    simp [change_l_gamma_figs]
  · intro hf
    simp [change_l_gamma_figs, List.length_erase_of_mem hf]

/-- C6 witness: the figure counts of the sweep loop evaluated on a
concrete two-file directory listing. -/
theorem C6_witness :
    (change_l_gamma_figs ["a", "b"] (fun _ => mat2)).length =
      (["a", "b"] : List String).length ∧
    (change_l_gamma_figs ((["a", "b"] : List String).erase "a")
      (fun _ => mat2)).length = (["a", "b"] : List String).length - 1 :=
  ⟨(C6_sweep_figure_count ["a", "b"] (fun _ => mat2) "a").1,
   (C6_sweep_figure_count ["a", "b"] (fun _ => mat2) "a").2.2.2 (by decide)⟩

theorem np_loadtxt_single_col (file : List (List ℚ))
    (h : ∀ row ∈ file, row.length = 1) :
    ∃ v, np_loadtxt file = NDArray.oneD v := by
  rcases file with _ | ⟨r, _ | ⟨r2, t⟩⟩
  · exact ⟨[], rfl⟩
  · exact ⟨r, rfl⟩
  · refine ⟨(r :: r2 :: t).map (fun row => row.headD 0), ?_⟩
    unfold np_loadtxt
    rw [if_pos]
    rw [List.all_eq_true]
    intro row hrow
    simpa using h row hrow

/-- C7: a loaded array whose column count is below the two columns the
scatter and curve calls index (every file row holds a single value, so the
load squeezes to 1-D) makes the script fail with an uncaught error before
rendering, in both the geo sweep block and the death-model surface
block. -/
theorem C7_shape_mismatch_fails (file : List (List ℚ))
    (h : ∀ row ∈ file, row.length = 1) :
    renderOk (geo_sweep_render file) = false ∧
    renderOk (death_surface_render file) = false := by
  obtain ⟨v, hv⟩ := np_loadtxt_single_col file h
  constructor
  · unfold geo_sweep_render
    rw [hv]
    rfl
  · unfold death_surface_render
    rw [hv]
    rfl

/-- C7 witness: the failure evaluated on a concrete 3-row single-column
file. -/
theorem C7_witness :
    renderOk (geo_sweep_render [[1], [2], [3]]) = false ∧
    renderOk (death_surface_render [[1], [2], [3]]) = false :=
  C7_shape_mismatch_fails [[1], [2], [3]] (by decide)

/-- Names of the pk input files whose contents feed the transformed data
(rescaled x axes and per-column threshold counts). -/
def pk_input_files : List String :=
  ["ace_trace_18m.txt", "sgd_m1_trace_18m.txt", "sgd_designs_18m.txt",
   "sgd_designs_ph2_18m.txt", "sgd_m1_trace_first100k.txt",
   "sgd_m10_trace_18m.txt", "sgd_m100_trace_18m.txt"]

/-- Transformed data of one pk script run as a function of the parsed
file-system contents: every rescaled x axis and every per-column
threshold count the script computes before plotting. -/
def pk_transformed (env : String → List (List ℚ)) : List (List ℚ) :=
  [x_ace18 (env "ace_trace_18m.txt"),
   x_sgd18 (env "sgd_m1_trace_18m.txt"),
   num_at_8_2 (env "sgd_designs_18m.txt"),
   num_at_8_2 (env "sgd_designs_ph2_18m.txt"),
   x_sgd1_first100k (env "sgd_m1_trace_first100k.txt"),
   x_sgd1 (env "sgd_m1_trace_18m.txt"),
   x_sgd10 (env "sgd_m10_trace_18m.txt"),
   x_sgd100 (env "sgd_m100_trace_18m.txt")]

/-- C8: two runs of the pk script over file systems that agree on the
input files produce identical transformed data; the transforms read
nothing else, so re-running on unchanged files is deterministic. -/
theorem C8_deterministic_transforms (env₁ env₂ : String → List (List ℚ))
    (h : ∀ f ∈ pk_input_files, env₁ f = env₂ f) :
    pk_transformed env₁ = pk_transformed env₂ := by
  unfold pk_transformed
  rw [h "ace_trace_18m.txt" (by decide),
    h "sgd_m1_trace_18m.txt" (by decide),
    h "sgd_designs_18m.txt" (by decide),
    h "sgd_designs_ph2_18m.txt" (by decide),
    h "sgd_m1_trace_first100k.txt" (by decide),
    h "sgd_m10_trace_18m.txt" (by decide),
    h "sgd_m100_trace_18m.txt" (by decide)]

/-- C8 witness: determinism evaluated on a concrete file system binding
every file to mat2, compared against itself. -/
theorem C8_witness :
    pk_transformed (fun _ => mat2) = pk_transformed (fun _ => mat2) :=
  C8_deterministic_transforms (fun _ => mat2) (fun _ => mat2)
    (fun _ _ => rfl)

/-- State-passing view of np.transpose(a): the produced value paired with
the array the call leaves behind; the transpose is a read-only view and
writes nothing into its source. -/
def np_transpose_op (a : List (List ℚ)) :
    List (List ℚ) × List (List ℚ) :=
  (np_transpose a, a)

/-- State-passing view of the threshold count np.sum(a > 8, 0), which
reads the array and writes a fresh count vector. -/
def num_at_8_2_op (a : List (List ℚ)) : List ℚ × List (List ℚ) :=
  (num_at_8_2 a, a)

/-- State-passing view of the x-axis rescale np.linspace(0, total,
np.shape(a)[1]), which reads only the shape of the array. -/
def rescale_op (total : ℚ) (a : List (List ℚ)) :
    List ℚ × List (List ℚ) :=
  (np_linspace 0 total (np_ncols a), a)

/-- C9: each transform applied between load and render (transpose,
threshold count, x-axis rescale) produces its new value and leaves the
loaded array exactly as it was. -/
theorem C9_transforms_do_not_mutate (a : List (List ℚ)) (total : ℚ) :
    (np_transpose_op a).2 = a ∧
    (num_at_8_2_op a).2 = a ∧
    (rescale_op total a).2 = a ∧
    (np_transpose_op a).1 = np_transpose a ∧
    (num_at_8_2_op a).1 = num_at_8_2 a ∧
    (rescale_op total a).1 = np_linspace 0 total (np_ncols a) :=
  ⟨rfl, rfl, rfl, rfl, rfl, rfl⟩

/-- Embedding of np.arange(start, stop) for integer endpoints, as the
rational values start, start + 1, ..., stop - 1. -/
def np_arange (start stop : ℤ) : List ℚ :=
  (List.range (stop - start).toNat).map
    (fun i : ℕ => (start : ℚ) + (i : ℚ))

/-- Embedding of np.repeat(l, n): each element repeated n times in
place. -/
def np_repeat (l : List ℚ) (n : ℕ) : List ℚ :=
  l.flatMap (fun v => List.replicate n v)

/-- Embedding of reshape((r, c)) of a flat vector: r rows of c
consecutive entries. -/
def np_reshape (l : List ℚ) (r c : ℕ) : List (List ℚ) :=
  (List.range r).map (fun i : ℕ => (l.drop (i * c)).take c)

/-- The x matrix of the pk returned-designs figures (bound to the symbol
x in the source):
x = np.repeat(np.arange(1, 16), 100).reshape((15, 100)).transpose(). -/
def pk_design_x : List (List ℚ) :=
  np_transpose (np_reshape (np_repeat (np_arange 1 16) 100) 15 100)

/-- Embedding of plt.scatter(x, y) with 2-D arguments: both arrays are
flattened, matplotlib raises when the flattened sizes differ, and
otherwise the coordinates pair up pointwise. -/
def plt_scatter (x y : List (List ℚ)) : Except String (List (ℚ × ℚ)) :=
  if x.flatten.length = y.flatten.length
  then Except.ok (x.flatten.zip y.flatten)
  else Except.error "x and y must be the same size"

theorem np_repeat_cons (a : ℚ) (t : List ℚ) (n : ℕ) :
    np_repeat (a :: t) n = List.replicate n a ++ np_repeat t n := by
  simp [np_repeat]

theorem np_reshape_repeat_row (l : List ℚ) (n i : ℕ) (hi : i < l.length) :
    ((np_repeat l n).drop (i * n)).take n =
      List.replicate n (l.getD i 0) := by
  induction l generalizing i with
  | nil => simp at hi
  | cons a t ih =>
    cases i with
    | zero =>
      rw [np_repeat_cons]
      simp only [Nat.zero_mul, List.drop_zero]
      rw [List.take_left' (List.length_replicate n a)]
      rfl
    | succ j =>
      have hj : j < t.length := by simpa using hi
      rw [np_repeat_cons]
      have hmul : (j + 1) * n = (List.replicate n a).length + j * n := by
        rw [List.length_replicate]
        ring
      rw [hmul, List.drop_append]
      exact ih j hj

theorem np_transpose_reshape_repeat (l : List ℚ) (n : ℕ)
    (hl : 0 < l.length) :
    np_transpose (np_reshape (np_repeat l n) l.length n) =
      List.replicate n l := by
  have hM : np_reshape (np_repeat l n) l.length n =
      (List.range l.length).map
        (fun i : ℕ => List.replicate n (l.getD i 0)) := by
    unfold np_reshape
    apply List.map_congr_left
    intro i hi
    exact np_reshape_repeat_row l n i (List.mem_range.mp hi)
  rw [hM]
  have hcols : np_ncols ((List.range l.length).map
      (fun i : ℕ => List.replicate n (l.getD i 0))) = n := by
    obtain ⟨k, hk⟩ : ∃ k, l.length = k + 1 := ⟨l.length - 1, by omega⟩
    rw [hk, List.range_succ_eq_map]
    simp [np_ncols]
  unfold np_transpose
  rw [hcols]
  have hcol : ∀ j ∈ List.range n,
      ((List.range l.length).map
        (fun i : ℕ => List.replicate n (l.getD i 0))).map
          (fun row => row.getD j 0) = l := by
    intro j hj
    have hjn : j < n := List.mem_range.mp hj
    rw [List.map_map]
    have hentry : ∀ i ∈ List.range l.length,
        ((fun row => row.getD j 0) ∘
          fun i : ℕ => List.replicate n (l.getD i 0)) i = l.getD i 0 := by
      intro i _
      simp [Function.comp, List.getD_eq_getElem?_getD,
        List.getElem?_replicate_of_lt hjn]
    rw [List.map_congr_left hentry]
    exact map_range_getD l
  rw [List.map_congr_left hcol, List.map_const', List.length_range]

theorem np_arange_length (start stop : ℤ) :
    (np_arange start stop).length = (stop - start).toNat := by
  unfold np_arange
  rw [List.length_map, List.length_range]

theorem np_arange_1_16_length : (np_arange 1 16).length = 15 := by
  rw [np_arange_length]
  decide

theorem np_arange_getElem (start stop : ℤ) (c : ℕ)
    (hc : c < (stop - start).toNat) :
    (np_arange start stop)[c]? = some ((start : ℚ) + (c : ℚ)) := by
  unfold np_arange
  rw [List.getElem?_map, List.getElem?_range hc]
  rfl

theorem np_arange_1_16_getElem (c : ℕ) (hc : c < 15) :
    (np_arange 1 16)[c]? = some ((c : ℚ) + 1) := by
  rw [np_arange_getElem 1 16 c (by omega)]
  norm_num
  ring

theorem pk_design_x_eq :
    pk_design_x = List.replicate 100 (np_arange 1 16) := by
  have h := np_transpose_reshape_repeat (np_arange 1 16) 100
    (by rw [np_arange_1_16_length]; norm_num)
  rw [np_arange_1_16_length] at h
  exact h

/-- C10: the x matrix of the returned-designs scatter figures is built
independently of the loaded data as 100 identical rows of the values
1, 2, ..., 15, so each entry of column c is c + 1; against a loaded
design matrix of 100 rows and 15 columns the scatter call succeeds and
every plotted x coordinate is an observation index c + 1 with c below
15. -/
theorem C10_design_x_matrix (d : List (List ℚ)) (hd : d.length = 100)
    (hrows : ∀ row ∈ d, row.length = 15) :
    pk_design_x = List.replicate 100 (np_arange 1 16) ∧
    pk_design_x.length = 100 ∧
    (∀ row ∈ pk_design_x, row.length = 15) ∧
    (∀ c : ℕ, c < 15 → (np_arange 1 16)[c]? = some ((c : ℚ) + 1)) ∧
    (∃ pts, plt_scatter pk_design_x d = Except.ok pts ∧
      ∀ p ∈ pts, ∃ c : ℕ, c < 15 ∧ p.1 = (c : ℚ) + 1) := by
  refine ⟨pk_design_x_eq, by rw [pk_design_x_eq]; simp, ?_, ?_, ?_⟩
  · intro row hrow
    rw [pk_design_x_eq] at hrow
    rw [List.eq_of_mem_replicate hrow]
    exact np_arange_1_16_length
  · intro c hc
    exact np_arange_1_16_getElem c hc
  · have hxflat : pk_design_x.flatten.length = 1500 := by
      rw [pk_design_x_eq, List.length_flatten, List.map_replicate,
        np_arange_1_16_length, List.sum_replicate]
      norm_num
    have hyflat : d.flatten.length = 1500 := by
      rw [List.length_flatten]
      have hmap : d.map List.length = List.replicate 100 15 := by
        rw [List.eq_replicate_iff]
        refine ⟨by simpa using hd, ?_⟩
        intro b hb
        rcases List.mem_map.mp hb with ⟨row, hrow, rfl⟩
        exact hrows row hrow
      rw [hmap, List.sum_replicate]
      norm_num
    refine ⟨pk_design_x.flatten.zip d.flatten, ?_, ?_⟩
    · unfold plt_scatter
      rw [if_pos (by rw [hxflat, hyflat])]
    · intro p hp
      rcases p with ⟨px, py⟩
      have hmem := (List.of_mem_zip hp).1
      rw [pk_design_x_eq] at hmem
      rcases List.mem_flatten.mp hmem with ⟨s, hs, hpx⟩
      rw [List.eq_of_mem_replicate hs] at hpx
      rcases List.mem_iff_getElem?.mp hpx with ⟨c, hc⟩
      have hclt : c < 15 := by
        rcases List.getElem?_eq_some_iff.mp hc with ⟨hlt, _⟩
        rw [np_arange_1_16_length] at hlt
        exact hlt
      refine ⟨c, hclt, ?_⟩
      rw [np_arange_1_16_getElem c hclt] at hc
      exact (Option.some.inj hc).symm

/-- C10 witness: the x-matrix characterization evaluated against a
concrete all-zero 100 by 15 design matrix. -/
theorem C10_witness :
    pk_design_x = List.replicate 100 (np_arange 1 16) ∧
    pk_design_x.length = 100 :=
  ⟨(C10_design_x_matrix (List.replicate 100 (List.replicate 15 0))
      (by simp)
      (fun row hrow => by rw [List.eq_of_mem_replicate hrow]; simp)).1,
   (C10_design_x_matrix (List.replicate 100 (List.replicate 15 0))
      (by simp)
      (fun row hrow => by rw [List.eq_of_mem_replicate hrow]; simp)).2.1⟩
